import Mathlib

/-!
Shallow embedding of the Session Entitlement & Settlement Engine of the
fitness-trainer ERP (`app.py`).  Database rows are modelled as Lean
structures, tables as lists, and the core of each request handler as a pure
state-transition function.  Status values are kept as the literal strings the
source stores.  Each operation that can fail returns the (possibly updated)
state together with an optional typed error, so "no write happened" is a
provable statement.
-/

namespace Erp

/-- Booking status written by schedule creation (`'수업 계획'`, "planned"). -/
def stPlanned : String := "수업 계획"

/-- Booking status written on completion (`'수업 완료'`, "completed"). -/
def stDone : String := "수업 완료"

/-- Booking status written on cancellation (`'수업 취소'`, "cancelled"). -/
def stCancelled : String := "수업 취소"

/-- One row of the `schedules` table, restricted to the fields the
entitlement logic reads: the ledger entry it consumes (`member_id`), its
status string, and `schedule_date` (as an abstract day index). -/
structure Sched where
  memberId : Nat
  status : String
  scheduleDate : Int
  deriving DecidableEq

/-- One row of the `members` table as read by
`get_remaining_sessions_for_person`: a ledger entry (one purchase) of a
person, with its credit count and creation timestamp. -/
structure LedgerEntry where
  id : Nat
  sessions : Int
  createdAt : Int
  deriving DecidableEq

/-- Number of completed bookings referencing ledger entry `eid`
(`schedules` rows with `member_id = eid` and status `'수업 완료'`). -/
def completedCount (scheds : List Sched) (eid : Nat) : Nat :=
  scheds.countP (fun s => decide (s.memberId = eid ∧ s.status = stDone))

/-- Number of planned bookings referencing ledger entry `eid`
(`schedules` rows with `member_id = eid` and status `'수업 계획'`). -/
def plannedCount (scheds : List Sched) (eid : Nat) : Nat :=
  scheds.countP (fun s => decide (s.memberId = eid ∧ s.status = stPlanned))

/-- Per-entry remaining credit: `sessions - (completed + planned)`, exactly as
computed inside `get_remaining_sessions_for_person` (may be negative). -/
def remainingOf (scheds : List Sched) (e : LedgerEntry) : Int :=
  e.sessions - ((completedCount scheds e.id : Int) + (plannedCount scheds e.id : Int))

/-- Result record of `get_remaining_sessions_for_person`. -/
structure RemainInfo where
  totalRemaining : Int
  entries : List LedgerEntry
  availableEntry : Option LedgerEntry
  deriving DecidableEq

/-- Loop body of `get_remaining_sessions_for_person`: accumulates
`total_remaining += max(0, remaining)` and records the first entry with
`remaining > 0` in `available_entry`. -/
def remainLoop (scheds : List Sched) (total : Int) (avail : Option LedgerEntry) :
    List LedgerEntry → Int × Option LedgerEntry
  | [] => (total, avail)
  | e :: rest =>
      let r := remainingOf scheds e
      remainLoop scheds (total + max 0 r)
        (if avail.isNone ∧ 0 < r then some e else avail) rest

/-- Model of `get_remaining_sessions_for_person`: `entries` is the person's
ledger-entry list in the query's `created_at` ascending order; the empty case
returns the zero/empty record without raising. -/
def getRemainingSessionsForPerson (entries : List LedgerEntry) (scheds : List Sched) :
    RemainInfo :=
  if entries.isEmpty then ⟨0, [], none⟩
  else
    let p := remainLoop scheds 0 none entries
    ⟨p.1, entries, p.2⟩

/-- State visible to the booking paths: the person's ledger entries (in
`created_at` order) and the `schedules` table. -/
structure PState where
  entries : List LedgerEntry
  scheds : List Sched
  deriving DecidableEq

/-- Typed error of the quick-add endpoint when the person has no remaining
credit (the handler answers HTTP 400 and inserts nothing). -/
inductive QuickAddErr where
  | exhausted
  deriving DecidableEq

/-- Core of `quick_add_schedule` for a regular (non-OT) member: re-reads the
person's remaining credit, fails with `exhausted` when `total_remaining <= 0`,
otherwise inserts a planned booking on the oldest entry with spare capacity
(`available_entry`), falling back to the requested entry id if none was
found. -/
def quickAddSchedule (s : PState) (reqMemberId : Nat) (date : Int) :
    PState × Option QuickAddErr :=
  let info := getRemainingSessionsForPerson s.entries s.scheds
  if info.totalRemaining ≤ 0 then (s, some .exhausted)
  else
    let target := match info.availableEntry with
      | some e => e.id
      | none => reqMemberId
    ({ s with scheds := s.scheds ++ [⟨target, stPlanned, date⟩] }, none)

/-- Core of `add_schedule`'s POST path: inserts a booking for the submitted
entry id with no remaining-credit check at all.  The insert omits `status`;
the store default must be `'수업 계획'` because the completion flow only
accepts rows in that status. -/
def addSchedule (s : PState) (memberId : Nat) (date : Int) : PState :=
  { s with scheds := s.scheds ++ [⟨memberId, stPlanned, date⟩] }

/-- Capacity equation claimed by the spec for one ledger entry:
`completed + planned + max(0, remaining) = sessions`. -/
def entryEquation (scheds : List Sched) (e : LedgerEntry) : Prop :=
  (completedCount scheds e.id : Int) + (plannedCount scheds e.id : Int)
    + max 0 (remainingOf scheds e) = e.sessions

instance (scheds : List Sched) (e : LedgerEntry) : Decidable (entryEquation scheds e) := by
  unfold entryEquation; infer_instance

/-- Spec invariant: the capacity equation holds for every ledger entry of the
state. -/
def ledgerInvariant (s : PState) : Prop :=
  ∀ e ∈ s.entries, entryEquation s.scheds e

instance (s : PState) : Decidable (ledgerInvariant s) :=
  List.decidableBAll _ s.entries

/-! Helper lemmas about the entitlement loop. -/

theorem remainLoop_fst (scheds : List Sched) :
    ∀ (l : List LedgerEntry) (total : Int) (avail : Option LedgerEntry),
      (remainLoop scheds total avail l).1
        = total + (l.map fun e => max 0 (remainingOf scheds e)).sum := by
  intro l
  induction l with
  | nil => intro total avail; simp [remainLoop]
  | cons e rest ih =>
      intro total avail
      simp only [remainLoop, List.map_cons, List.sum_cons]
      rw [ih]
      ring

theorem remainLoop_snd_none (scheds : List Sched) :
    ∀ (l : List LedgerEntry) (total : Int),
      (remainLoop scheds total none l).2
        = l.find? (fun e => decide (0 < remainingOf scheds e)) := by
  intro l
  induction l with
  | nil => intro total; simp [remainLoop]
  | cons e rest ih =>
      intro total
      by_cases h : 0 < remainingOf scheds e
      · simp only [remainLoop, Option.isNone_none, true_and, if_pos h]
        have hsome : ∀ (t : Int) (a : LedgerEntry) (l' : List LedgerEntry),
            (remainLoop scheds t (some a) l').2 = some a := by
          intro t a l'
          induction l' generalizing t with
          | nil => simp [remainLoop]
          | cons x xs ihx => simpa [remainLoop] using ihx _
        rw [hsome]
        rw [List.find?_cons_of_pos _ (by simpa using h)]
      · simp only [remainLoop, Option.isNone_none, true_and, if_neg h]
        rw [ih]
        rw [List.find?_cons_of_neg _ (by simpa using h)]

theorem getRemaining_total (entries : List LedgerEntry) (scheds : List Sched) :
    (getRemainingSessionsForPerson entries scheds).totalRemaining
      = (entries.map fun e => max 0 (remainingOf scheds e)).sum := by
  unfold getRemainingSessionsForPerson
  by_cases h : entries.isEmpty
  · cases entries with
    | nil => simp
    | cons a l => simp at h
  · simp only [if_neg h]
    simpa using remainLoop_fst scheds entries 0 none

theorem getRemaining_avail (entries : List LedgerEntry) (scheds : List Sched) :
    (getRemainingSessionsForPerson entries scheds).availableEntry
      = entries.find? (fun e => decide (0 < remainingOf scheds e)) := by
  unfold getRemainingSessionsForPerson
  by_cases h : entries.isEmpty
  · cases entries with
    | nil => simp
    | cons a l => simp at h
  · simp only [if_neg h]
    simpa using remainLoop_snd_none scheds entries 0

theorem find?_oldest {p : LedgerEntry → Bool} :
    ∀ l : List LedgerEntry, l.Pairwise (fun a b => a.createdAt ≤ b.createdAt) →
      ∀ e, l.find? p = some e →
        ∀ e' ∈ l, p e' = true → e.createdAt ≤ e'.createdAt := by
  intro l
  induction l with
  | nil => intro _ e hf; simp at hf
  | cons x xs ih =>
      intro hp e hf e' he' hpe'
      rcases List.pairwise_cons.mp hp with ⟨hx, hxs⟩
      by_cases hpx : p x
      · rw [List.find?_cons_of_pos _ hpx] at hf
        cases hf
        rcases List.mem_cons.mp he' with rfl | he'
        · exact le_refl _
        · exact hx e' he'
      · rw [List.find?_cons_of_neg _ (by simpa using hpx)] at hf
        rcases List.mem_cons.mp he' with rfl | he'
        · exact absurd hpe' hpx
        · exact ih hxs e hf e' he' hpe'

/-- Ledger entry `e1` of the spec's FIFO example: 3 sessions, created first. -/
def fifoE1 : LedgerEntry := ⟨1, 3, 10⟩

/-- Ledger entry `e2` of the spec's FIFO example: 2 sessions, created later. -/
def fifoE2 : LedgerEntry := ⟨2, 2, 20⟩

/-- Initial state of the FIFO example: both entries, no bookings yet. -/
def fifoS0 : PState := ⟨[fifoE1, fifoE2], []⟩

/-- One successful quick-add booking request in the FIFO example. -/
def fifoStep (s : PState) : PState := (quickAddSchedule s 1 0).1

/-- Claim C1: `get_remaining_sessions_for_person` returns `total_remaining`
equal to the sum over the person's entries (in `created_at` order) of
`max(0, sessions - (completed + planned))`; the allocation target is the
first entry with positive remaining — the oldest such entry when the list is
sorted by `created_at` — and the empty-person case yields the zero/empty
record; consequently `quick_add_schedule` drains the oldest entry first
(entries of 3 then 2 sessions absorb 4 bookings as 3 then 1) and a 5th
booking fails with the `Exhausted`-style error without inserting. -/
theorem c1_remaining_sessions_fifo :
    (∀ entries scheds, (getRemainingSessionsForPerson entries scheds).totalRemaining
        = (entries.map fun e => max 0 (remainingOf scheds e)).sum)
  ∧ (∀ entries scheds, (getRemainingSessionsForPerson entries scheds).availableEntry
        = entries.find? (fun e => decide (0 < remainingOf scheds e)))
  ∧ (∀ scheds, getRemainingSessionsForPerson [] scheds = ⟨0, [], none⟩)
  ∧ (∀ entries scheds e, entries.Pairwise (fun a b => a.createdAt ≤ b.createdAt) →
        (getRemainingSessionsForPerson entries scheds).availableEntry = some e →
          0 < remainingOf scheds e ∧
            ∀ e' ∈ entries, 0 < remainingOf scheds e' → e.createdAt ≤ e'.createdAt)
  ∧ (∀ s reqId date, (getRemainingSessionsForPerson s.entries s.scheds).totalRemaining ≤ 0 →
        quickAddSchedule s reqId date = (s, some QuickAddErr.exhausted))
  ∧ (plannedCount (fifoStep^[3] fifoS0).scheds 1 = 3
      ∧ plannedCount (fifoStep^[3] fifoS0).scheds 2 = 0
      ∧ plannedCount (fifoStep^[4] fifoS0).scheds 1 = 3
      ∧ plannedCount (fifoStep^[4] fifoS0).scheds 2 = 1
      ∧ plannedCount (fifoStep^[5] fifoS0).scheds 1 = 3
      ∧ plannedCount (fifoStep^[5] fifoS0).scheds 2 = 2
      ∧ quickAddSchedule (fifoStep^[5] fifoS0) 1 0
          = (fifoStep^[5] fifoS0, some QuickAddErr.exhausted)) := by
  refine ⟨getRemaining_total, getRemaining_avail, ?_, ?_, ?_, ?_⟩
  · intro scheds; simp [getRemainingSessionsForPerson]
  · intro entries scheds e hsort havail
    rw [getRemaining_avail] at havail
    have hpe : 0 < remainingOf scheds e := by
      have := List.find?_some havail
      simpa using this
    refine ⟨hpe, ?_⟩
    intro e' he' hre'
    exact find?_oldest entries hsort e havail e' he' (by simpa using hre')
  · intro s reqId date htot
    simp [quickAddSchedule, htot]
  · decide

/-- Closed instance of claim C1's hypothesis-bearing conjunct: in the FIFO
example state, the allocation target `e1` has positive remaining and is the
oldest entry with positive remaining. -/
theorem c1_remaining_sessions_fifo_witness :
    0 < remainingOf [] fifoE1
      ∧ ∀ e' ∈ [fifoE1, fifoE2], 0 < remainingOf [] e' →
          fifoE1.createdAt ≤ e'.createdAt :=
  c1_remaining_sessions_fifo.2.2.2.1 [fifoE1, fifoE2] [] fifoE1
    (by decide) (by decide)

/-! Capacity invariant (claim C4). -/

theorem completedCount_append_planned (scheds : List Sched) (tid id : Nat) (d : Int) :
    completedCount (scheds ++ [⟨tid, stPlanned, d⟩]) id = completedCount scheds id := by
  unfold completedCount
  rw [List.countP_append]
  have hz : List.countP (fun s => decide (s.memberId = id ∧ s.status = stDone))
      [(⟨tid, stPlanned, d⟩ : Sched)] = 0 := by
    rw [List.countP_cons_of_neg, List.countP_nil]
    simp only [decide_eq_true_eq, not_and]
    exact fun _ => by decide
  rw [hz, Nat.add_zero]

theorem plannedCount_append_planned (scheds : List Sched) (tid id : Nat) (d : Int) :
    plannedCount (scheds ++ [⟨tid, stPlanned, d⟩]) id
      = plannedCount scheds id + (if tid = id then 1 else 0) := by
  unfold plannedCount
  rw [List.countP_append]
  by_cases h : tid = id
  · have ho : List.countP (fun s => decide (s.memberId = id ∧ s.status = stPlanned))
        [(⟨tid, stPlanned, d⟩ : Sched)] = 1 := by
      rw [List.countP_cons_of_pos, List.countP_nil]
      simp [h]
    rw [ho, if_pos h]
  · have hz : List.countP (fun s => decide (s.memberId = id ∧ s.status = stPlanned))
        [(⟨tid, stPlanned, d⟩ : Sched)] = 0 := by
      rw [List.countP_cons_of_neg, List.countP_nil]
      simp [h]
    rw [hz, if_neg h]

/-- Claim C4 (amended): the regular-member path of `quick_add_schedule`
preserves the capacity equation for every ledger entry: it checks the
person's remaining credit and allocates the booking to an entry with
`remaining > 0`.  (The claim's "every booking-creation path" part fails:
`add_schedule` inserts without any credit check, see the counterexample.) -/
theorem c4_capacity_quickadd (s : PState) (reqId : Nat) (date : Int)
    (hinv : ledgerInvariant s) (hids : (s.entries.map (·.id)).Nodup) :
    ledgerInvariant (quickAddSchedule s reqId date).1 := by
  unfold quickAddSchedule
  by_cases htot : (getRemainingSessionsForPerson s.entries s.scheds).totalRemaining ≤ 0
  · simpa [htot] using hinv
  · simp only [if_neg htot]
    -- the allocation target exists and has positive remaining
    have hsum : 0 < (s.entries.map fun e => max 0 (remainingOf s.scheds e)).sum := by
      have := getRemaining_total s.entries s.scheds
      omega
    obtain ⟨e0, hfind⟩ :
        ∃ e0, (getRemainingSessionsForPerson s.entries s.scheds).availableEntry = some e0 := by
      rw [getRemaining_avail]
      cases hcase : s.entries.find? (fun e => decide (0 < remainingOf s.scheds e)) with
      | some e0 => exact ⟨e0, rfl⟩
      | none =>
          exfalso
          have hall := List.find?_eq_none.mp hcase
          have hzero : (s.entries.map fun e => max 0 (remainingOf s.scheds e)).sum = 0 := by
            apply List.sum_eq_zero
            intro x hx
            rcases List.mem_map.mp hx with ⟨e, he, rfl⟩
            have := hall e he
            simp only [decide_eq_true_eq] at this
            omega
          omega
    have he0mem : e0 ∈ s.entries := by
      rw [getRemaining_avail] at hfind
      exact List.mem_of_find?_eq_some hfind
    have he0pos : 0 < remainingOf s.scheds e0 := by
      rw [getRemaining_avail] at hfind
      have := List.find?_some hfind
      simpa using this
    simp only [hfind]
    intro e he
    have heq := hinv e he
    unfold entryEquation at heq ⊢
    rw [completedCount_append_planned, plannedCount_append_planned]
    by_cases hid : e0.id = e.id
    · have : e = e0 := List.inj_on_of_nodup_map hids he he0mem hid.symm
      subst this
      unfold remainingOf at he0pos ⊢
      rw [completedCount_append_planned, plannedCount_append_planned]
      simp only [if_pos hid]
      push_cast
      omega
    · unfold remainingOf at heq ⊢
      rw [completedCount_append_planned, plannedCount_append_planned]
      simp only [if_neg hid]
      push_cast at heq ⊢
      omega

/-- Concrete state refuting claim C4 as stated: one entry with 1 session and
already one planned booking. -/
def c4State : PState := ⟨[⟨1, 1, 0⟩], [⟨1, stPlanned, 5⟩]⟩

/-- Claim C4 counterexample: `add_schedule` inserts a booking with no
remaining-credit check, so from a state satisfying the capacity equation a
single `add_schedule` call produces an entry with
`completed + planned + max(0, remaining) = 2 ≠ 1 = sessions`. -/
theorem c4_capacity_counterexample :
    ledgerInvariant c4State ∧ ¬ ledgerInvariant (addSchedule c4State 1 6) := by
  decide

/-- Closed instance of claim C4's amended theorem at a concrete state. -/
theorem c4_capacity_quickadd_witness :
    ledgerInvariant (quickAddSchedule ⟨[⟨1, 2, 0⟩], []⟩ 1 0).1 :=
  c4_capacity_quickadd ⟨[⟨1, 2, 0⟩], []⟩ 1 0 (by decide) (by decide)

/-! Settlement engine: tier lookups, refund/transfer recomputation, day-off
deduction.  Months are abstracted to integer month indices (`created_at`'s
month in KST); a member row carries the fields these paths read and write.
Presentation-only fields (signature, payment method, audit timestamps) are
omitted. -/

/-- Truncation of `int(sales_amount * 0.17)`.  The source computes the product
in IEEE-754 double precision and truncates toward zero; it is modelled as the
exact `⌊sales * 17 / 100⌋`, which agrees with the double computation at every
input evaluated in this development (e.g. `12,000,000 ↦ 2,040,000`). -/
def pct17 (sales : ℚ) : Int := ⌊sales * 17 / 100⌋

/-- Model of `calculate_incentive` (the `settings` parameter is accepted but
never read by the source, so the hard-coded tiers always apply). -/
def calculateIncentive (sales : ℚ) : Int :=
  if 20000000 ≤ sales then pct17 sales + 1000000
  else if 15000000 ≤ sales then pct17 sales + 500000
  else if 12000000 ≤ sales then pct17 sales
  else if 10000000 ≤ sales then 1400000
  else if 8000000 ≤ sales then 880000
  else if 6500000 ≤ sales then 520000
  else if 4500000 ≤ sales then 225000
  else 0

/-- Model of `calculate_lesson_fee_rate` (in-hours lesson-fee percentage). -/
def calculateLessonFeeRate (sales : ℚ) : Int :=
  if 12000000 ≤ sales then 35
  else if 10000000 ≤ sales then 34
  else if 8000000 ≤ sales then 33
  else if 6500000 ≤ sales then 32
  else if 4500000 ≤ sales then 31
  else if 3000000 ≤ sales then 30
  else 10

/-- Model of `calculate_master_trainer_bonus` with the default settings
(threshold 9,000,000 average over 6 months, bonus 300,000). -/
def calculateMasterTrainerBonus (sixMonthSales : ℚ) : Int :=
  if 9000000 ≤ sixMonthSales / 6 then 300000 else 0

/-- Model of `calculate_dayoff_deduction`: first day free, then 33,000 per
day. -/
def calculateDayoffDeduction (days : Int) : Int :=
  if days ≤ 1 then 0 else (days - 1) * 33000

/-- Day-count normalisation in `update_trainer_dayoff`: `int(days)` wrapped in
try/except (non-numeric input becomes 0, modelled as `none`) followed by
clamping negatives to 0, so the stored count is never negative. -/
def normalizeDayoffDays (submitted : Option Int) : Int :=
  match submitted with
  | none => 0
  | some d => if d < 0 then 0 else d

/-- One row of the `members` table with the fields the settlement, refund and
transfer paths read and write. -/
structure MemberR where
  id : Nat
  trainerId : Nat
  memberName : String
  phone : String
  sessions : Int
  unitPrice : Int
  channel : String
  createdMonth : Int
  refundStatus : Option String := none
  originalSessions : Option Int := none
  refundAmount : Option Int := none
  refundSessions : Option Int := none
  refundOrigMonth : Option Int := none
  refundAppliedMonth : Option Int := none
  transferStatus : Option String := none
  transferredTo : Option Nat := none
  transferredSessions : Option Int := none
  transferredFrom : Option Nat := none
  transferredFromTrainer : Option Nat := none
  deriving DecidableEq

/-- Model of `calculate_member_sales_contribution`: `sessions * unit_price`,
halved when the channel is `'WI'`. -/
def calculateMemberSalesContribution (m : MemberR) : ℚ :=
  let base : ℚ := ((m.sessions * m.unitPrice : Int) : ℚ)
  if m.channel = "WI" then base / 2 else base

/-- Model of `calculate_trainer_incentives_for_month`: sales of the trainer's
members created in month `m` (optionally excluding one member id), six-month
sales for the master bonus, and the resulting `incentive + master_bonus`.
Returns `(total_incentives, sales)`. -/
def calculateTrainerIncentivesForMonth (members : List MemberR) (trainerId : Nat) (m : Int)
    (excludeId : Option Nat) : Int × ℚ :=
  let monthly := members.filter
    (fun x => decide (x.trainerId = trainerId ∧ x.createdMonth = m))
  let sales : ℚ :=
    ((monthly.filter (fun x => decide (excludeId ≠ some x.id))).map
      calculateMemberSalesContribution).sum
  let sixMonth := members.filter
    (fun x => decide (x.trainerId = trainerId ∧ m - 5 ≤ x.createdMonth ∧ x.createdMonth ≤ m))
  let sixSales : ℚ :=
    ((sixMonth.filter (fun x => decide (excludeId ≠ some x.id))).map
      calculateMemberSalesContribution).sum
  (calculateIncentive sales + calculateMasterTrainerBonus sixSales, sales)

/-- State of the settlement paths: the `members` and `schedules` tables and the
store-generated key for the next inserted member row. -/
structure MState where
  members : List MemberR
  schedules : List Sched
  nextMemberId : Nat
  deriving DecidableEq

/-- Model of `calculate_refund_deduction`: incentives of the entry's origin
month including the entry, minus the same total excluding it.  Returns
`(deduction, origin_month)`, `(0, none)` when the member is missing. -/
def calculateRefundDeduction (members : List MemberR) (targetId : Nat) :
    Int × Option Int :=
  match members.find? (fun x => decide (x.id = targetId)) with
  | none => (0, none)
  | some mem =>
      let m := mem.createdMonth
      let incl := (calculateTrainerIncentivesForMonth members mem.trainerId m none).1
      let excl := (calculateTrainerIncentivesForMonth members mem.trainerId m (some targetId)).1
      (incl - excl, some m)

/-- Typed errors of the refund path. -/
inductive RefundErr where
  | notFound
  | alreadyRefunded
  deriving DecidableEq

/-- Row patch applied by `refund_member` to the refunded entry (`amt` is the
value stored into `refund_amount`). -/
def refundUpdateFn (targetId : Nat) (nowMonth : Int) (mem : MemberR)
    (completed amt : Int) (x : MemberR) : MemberR :=
  if x.id = targetId then
    { x with
      refundStatus := some "refunded",
      originalSessions := some mem.sessions,
      sessions := completed,
      refundAmount := some amt,
      refundSessions := some (mem.sessions - completed),
      refundOrigMonth := some mem.createdMonth,
      refundAppliedMonth := some nowMonth }
  else x

theorem refundUpdateFn_id (targetId : Nat) (nowMonth : Int) (mem : MemberR)
    (completed amt : Int) (x : MemberR) :
    (refundUpdateFn targetId nowMonth mem completed amt x).id = x.id := by
  unfold refundUpdateFn
  split <;> rfl

/-- Core of `refund_member`: proportional refund of a ledger entry.  The
deduction is computed (via `calculate_refund_deduction`, i.e. on the still
pre-refund `sessions`) only when the origin month differs from the current
month AND the monetary refund amount is positive; the entry keeps its
completed sessions, snapshots the pre-refund count in `original_sessions`,
and records the deduction with `refund_applied_month = current month`. -/
def refundMember (s : MState) (targetId : Nat) (nowMonth : Int) :
    MState × Option RefundErr :=
  match s.members.find? (fun x => decide (x.id = targetId)) with
  | none => (s, some .notFound)
  | some mem =>
      if mem.refundStatus = some "refunded" then (s, some .alreadyRefunded)
      else
        let completed : Int := completedCount s.schedules targetId
        let refundAmt := mem.sessions * mem.unitPrice - completed * mem.unitPrice
        let isSame := mem.createdMonth = nowMonth
        let deduction : Int :=
          if ¬ isSame ∧ 0 < refundAmt
          then (calculateRefundDeduction s.members targetId).1 else 0
        ({ s with
           members := s.members.map (refundUpdateFn targetId nowMonth mem completed
             (if ¬ isSame then deduction else 0)) }, none)

/-- Typed errors of the cancel-refund path. -/
inductive CancelRefundErr where
  | notFound
  | notRefunded
  deriving DecidableEq

/-- Row patch applied by `cancel_refund`: clears every refund field, and sets
`sessions := v` only when `restore = some v` (the truthy case of the source's
`if original_sessions:`). -/
def cancelRefundUpdateFn (targetId : Nat) (restore : Option Int) (x : MemberR) : MemberR :=
  if x.id = targetId then
    let base := { x with
      refundStatus := (none : Option String),
      refundAmount := (none : Option Int),
      refundSessions := (none : Option Int),
      refundOrigMonth := (none : Option Int),
      refundAppliedMonth := (none : Option Int),
      originalSessions := (none : Option Int) }
    match restore with
    | some v => { base with sessions := v }
    | none => base
  else x

theorem cancelRefundUpdateFn_id (targetId : Nat) (restore : Option Int) (x : MemberR) :
    (cancelRefundUpdateFn targetId restore x).id = x.id := by
  unfold cancelRefundUpdateFn
  split
  · cases restore <;> rfl
  · rfl

/-- Core of `cancel_refund`: clears all refund fields; `sessions` is restored
from `original_sessions` only when that value is truthy — Python's
`if original_sessions:` is false both for `None` and for `0`. -/
def cancelRefund (s : MState) (targetId : Nat) : MState × Option CancelRefundErr :=
  match s.members.find? (fun x => decide (x.id = targetId)) with
  | none => (s, some .notFound)
  | some mem =>
      if mem.refundStatus ≠ some "refunded" then (s, some .notRefunded)
      else
        let restore : Option Int :=
          match mem.originalSessions with
          | some v => if v = 0 then none else some v
          | none => none
        ({ s with members := s.members.map (cancelRefundUpdateFn targetId restore) }, none)

/-- Claim C7 (amended): for every entry whose pre-refund `sessions` count is
nonzero, `cancel_refund(refund(e))` restores `sessions` to the pre-refund
value and clears all refund fields; `cancel_refund` fails with a
`NotRefunded`-style error on an entry that is not currently refunded.  (For a
pre-refund count of 0 the restore is skipped, because the source's
`if original_sessions:` treats the stored 0 as absent — see the
counterexample.) -/
theorem c7_cancel_refund_roundtrip :
    (∀ (s : MState) (targetId : Nat) (nowMonth : Int) (mem : MemberR),
      s.members.find? (fun x => decide (x.id = targetId)) = some mem →
      ¬ mem.refundStatus = some "refunded" →
      ¬ mem.sessions = 0 →
      ∃ s1 s2, refundMember s targetId nowMonth = (s1, none)
        ∧ cancelRefund s1 targetId = (s2, none)
        ∧ ∀ x' ∈ s2.members, x'.id = targetId →
            x'.sessions = mem.sessions
            ∧ x'.refundStatus = none ∧ x'.refundAmount = none
            ∧ x'.refundSessions = none ∧ x'.refundOrigMonth = none
            ∧ x'.refundAppliedMonth = none ∧ x'.originalSessions = none)
  ∧ (∀ (s : MState) (targetId : Nat) (mem : MemberR),
      s.members.find? (fun x => decide (x.id = targetId)) = some mem →
      ¬ mem.refundStatus = some "refunded" →
      cancelRefund s targetId = (s, some CancelRefundErr.notRefunded)) := by
  constructor
  · intro s targetId nowMonth mem hfind hnr hs0
    have hmemid : mem.id = targetId := by
      have := List.find?_some hfind
      simpa using this
    simp only [refundMember, hfind, if_neg hnr]
    set amt : Int :=
      (if ¬ mem.createdMonth = nowMonth then
        if ¬ mem.createdMonth = nowMonth
            ∧ 0 < mem.sessions * mem.unitPrice
                - (completedCount s.schedules targetId : Int) * mem.unitPrice
        then (calculateRefundDeduction s.members targetId).1 else 0
      else 0) with hamt
    set rf := refundUpdateFn targetId nowMonth mem
      (completedCount s.schedules targetId : Int) amt with hrf
    refine ⟨⟨s.members.map rf, s.schedules, s.nextMemberId⟩,
      ⟨(s.members.map rf).map (cancelRefundUpdateFn targetId (some mem.sessions)),
        s.schedules, s.nextMemberId⟩, rfl, ?_, ?_⟩
    case refine_1 =>
      -- the lookup in the refunded state finds the patched row
      have hcomp : ((fun x => decide (x.id = targetId)) ∘ rf)
          = fun x => decide (x.id = targetId) := by
        funext x
        simp [hrf, refundUpdateFn_id]
      have hfind1 : (s.members.map rf).find? (fun x => decide (x.id = targetId))
          = some (rf mem) := by
        rw [List.find?_map, hcomp, hfind]
        rfl
      have hrfmem : rf mem = { mem with
          refundStatus := some "refunded",
          originalSessions := some mem.sessions,
          sessions := (completedCount s.schedules targetId : Int),
          refundAmount := some amt,
          refundSessions := some (mem.sessions - (completedCount s.schedules targetId : Int)),
          refundOrigMonth := some mem.createdMonth,
          refundAppliedMonth := some nowMonth } := by
        rw [hrf]
        unfold refundUpdateFn
        rw [if_pos hmemid]
      simp only [cancelRefund, hfind1, hrfmem]
      rw [if_neg (by simp)]
      simp only [if_neg hs0]
    case refine_2 =>
      intro x' hx' hid
      simp only [List.mem_map] at hx'
      obtain ⟨x, ⟨a, ha, rfl⟩, rfl⟩ := hx'
      have hrfa : (rf a).id = targetId := by
        rw [cancelRefundUpdateFn_id] at hid
        exact hid
      unfold cancelRefundUpdateFn
      rw [if_pos hrfa]
      exact ⟨rfl, rfl, rfl, rfl, rfl, rfl, rfl⟩
  · intro s targetId mem hfind hnr
    simp only [cancelRefund, hfind]
    rw [if_pos hnr]

/-- Member of the claim C7 counterexample: an entry registered with 0 sessions
that nevertheless has one completed booking (bookable because `add_schedule`
performs no credit check). -/
def c7cMem : MemberR :=
  { id := 1, trainerId := 7, memberName := "이영", phone := "01055556666",
    sessions := 0, unitPrice := 10000, channel := "일반", createdMonth := 0 }

/-- State of the claim C7 counterexample. -/
def c7cS : MState := ⟨[c7cMem], [⟨1, stDone, 0⟩], 2⟩

/-- Claim C7 counterexample: refunding the 0-session entry stores
`original_sessions = 0`, which Python's `if original_sessions:` treats as
absent, so `cancel_refund` leaves `sessions` at the completed count 1 instead
of restoring the pre-refund value 0 — the round-trip does not hold for every
entry. -/
theorem c7_cancel_refund_counterexample :
    ∃ s1 s2, refundMember c7cS 1 0 = (s1, none)
      ∧ cancelRefund s1 1 = (s2, none)
      ∧ ∀ x ∈ s2.members, x.id = 1 →
          x.sessions = 1 ∧ ¬ x.sessions = c7cMem.sessions := by
  refine ⟨_, _, rfl, rfl, by decide⟩

/-- Member of the claim C7 witness. -/
def c7wMem : MemberR :=
  { id := 1, trainerId := 7, memberName := "최회원", phone := "01077778888",
    sessions := 10, unitPrice := 10000, channel := "일반", createdMonth := 0 }

/-- State of the claim C7 witness. -/
def c7wS : MState := ⟨[c7wMem], [⟨1, stDone, 0⟩], 2⟩

/-- Closed instance of claim C7's theorem: refund then cancel-refund on a
10-session entry with one completed booking restores `sessions = 10` and
clears the refund fields. -/
theorem c7_cancel_refund_roundtrip_witness :
    ∃ s1 s2, refundMember c7wS 1 0 = (s1, none)
      ∧ cancelRefund s1 1 = (s2, none)
      ∧ ∀ x' ∈ s2.members, x'.id = 1 →
          x'.sessions = c7wMem.sessions
          ∧ x'.refundStatus = none ∧ x'.refundAmount = none
          ∧ x'.refundSessions = none ∧ x'.refundOrigMonth = none
          ∧ x'.refundAppliedMonth = none ∧ x'.originalSessions = none :=
  c7_cancel_refund_roundtrip.1 c7wS 1 0 c7wMem (by decide) (by decide) (by decide)

/-- Status string used by the transfer path's schedule-delete filter.  The
source filters on `'계획'`, a value never written to `schedules` (bookings are
created with `'수업 계획'`); it also filters on a column named `date`, which
the table does not have (`schedule_date` is used everywhere else). -/
def stPlanShort : String := "계획"

/-- Typed errors of the transfer path. -/
inductive TransferErr where
  | notFound
  | refunded
  | alreadyTransferred
  | noRemaining
  deriving DecidableEq

/-- Core of `transfer_member`: marks the source entry `transferred` keeping
only its completed sessions, inserts a new entry for the receiving trainer
with the remaining sessions, then issues the schedule delete exactly as the
source writes it — filtering on status `'계획'` (and on the nonexistent
`date` column), so no `'수업 계획'` booking is ever removed. -/
def transferMember (s : MState) (targetId newTrainerId : Nat)
    (today : Int) (nowMonth : Int) : MState × Option TransferErr :=
  match s.members.find? (fun x => decide (x.id = targetId)) with
  | none => (s, some .notFound)
  | some mem =>
      if mem.refundStatus = some "refunded" then (s, some .refunded)
      else if mem.transferStatus = some "transferred" then (s, some .alreadyTransferred)
      else
        let completed : Int := completedCount s.schedules targetId
        let remainingSessions := mem.sessions - completed
        if remainingSessions ≤ 0 then (s, some .noRemaining)
        else
          let upd := fun x => if x.id = targetId then
              { x with
                transferStatus := some "transferred",
                originalSessions := some mem.sessions,
                sessions := completed,
                transferredTo := some newTrainerId,
                transferredSessions := some remainingSessions }
            else x
          let newMember : MemberR :=
            { id := s.nextMemberId,
              trainerId := newTrainerId,
              memberName := mem.memberName,
              phone := mem.phone,
              sessions := remainingSessions,
              unitPrice := mem.unitPrice,
              channel := mem.channel,
              createdMonth := nowMonth,
              transferStatus := some "received",
              transferredFrom := some targetId,
              transferredFromTrainer := some mem.trainerId }
          let schedules' := s.schedules.filter (fun c =>
            ! decide (c.memberId = targetId ∧ c.status = stPlanShort ∧ today ≤ c.scheduleDate))
          ({ members := s.members.map upd ++ [newMember],
             schedules := schedules',
             nextMemberId := s.nextMemberId + 1 }, none)

/-- Claim C2 (amended): when a ledger entry is refunded in a later month than
its origin month AND the monetary refund amount
`(sessions - completed) * unit_price` is positive, the recorded deduction
equals `incentive_total(origin_month, including) - incentive_total(origin_month,
excluding)` and is stored as `refund_amount` with
`refund_applied_month = current month`; when the origin month equals the
current month the recorded deduction is 0 (as it also is when the refund
amount is not positive — the restriction the counterexample forces); in all
cases `sessions` is rewritten to the completed count and `original_sessions`
snapshots the pre-refund value. -/
theorem c2_refund_deduction (s : MState) (targetId : Nat) (nowMonth : Int)
    (mem : MemberR)
    (hfind : s.members.find? (fun x => decide (x.id = targetId)) = some mem)
    (hnr : ¬ mem.refundStatus = some "refunded") :
    ∃ s', refundMember s targetId nowMonth = (s', none) ∧
      ∀ x' ∈ s'.members, x'.id = targetId →
        x'.refundStatus = some "refunded"
        ∧ x'.sessions = (completedCount s.schedules targetId : Int)
        ∧ x'.originalSessions = some mem.sessions
        ∧ x'.refundOrigMonth = some mem.createdMonth
        ∧ x'.refundAppliedMonth = some nowMonth
        ∧ (¬ mem.createdMonth = nowMonth →
            0 < mem.sessions * mem.unitPrice
                - (completedCount s.schedules targetId : Int) * mem.unitPrice →
            x'.refundAmount = some
              ((calculateTrainerIncentivesForMonth s.members mem.trainerId mem.createdMonth none).1
                - (calculateTrainerIncentivesForMonth s.members mem.trainerId mem.createdMonth
                    (some targetId)).1))
        ∧ (mem.createdMonth = nowMonth → x'.refundAmount = some 0) := by
  simp only [refundMember, hfind, if_neg hnr]
  refine ⟨_, rfl, ?_⟩
  intro x' hx' hid
  simp only [List.mem_map] at hx'
  obtain ⟨x, hx, rfl⟩ := hx'
  have hxid : x.id = targetId := by
    rw [refundUpdateFn_id] at hid; exact hid
  unfold refundUpdateFn
  rw [if_pos hxid]
  refine ⟨rfl, rfl, rfl, rfl, rfl, ?_, ?_⟩
  · intro hmon hpos
    rw [if_pos hmon, if_pos (show ¬ mem.createdMonth = nowMonth
        ∧ 0 < mem.sessions * mem.unitPrice
            - (completedCount s.schedules targetId : Int) * mem.unitPrice
      from ⟨hmon, hpos⟩)]
    simp only [calculateRefundDeduction, hfind]
  · intro hmon
    simp [hmon]

/-- Member of the claim C2 counterexample: 5 sessions at 1,000,000 each,
purchased in month 0, all 5 completed. -/
def c2cMem : MemberR :=
  { id := 1, trainerId := 7, memberName := "김환불", phone := "01011112222",
    sessions := 5, unitPrice := 1000000, channel := "일반", createdMonth := 0 }

/-- State of the claim C2 counterexample: the single member with all 5
sessions completed. -/
def c2cS : MState := ⟨[c2cMem], List.replicate 5 ⟨1, stDone, 0⟩, 2⟩

/-- Claim C2 counterexample: refunding a fully-consumed entry in a later month
records `refund_amount = 0`, although
`incentive_total(origin, including) - incentive_total(origin, excluding)`
is 225,000 — the code only computes the deduction when
`(sessions - completed) * unit_price > 0`, which the claim does not
require. -/
theorem c2_refund_counterexample :
    ∃ s', refundMember c2cS 1 1 = (s', none)
      ∧ (∀ x' ∈ s'.members, x'.id = 1 → x'.refundAmount = some 0)
      ∧ (calculateTrainerIncentivesForMonth c2cS.members 7 0 none).1
          - (calculateTrainerIncentivesForMonth c2cS.members 7 0 (some 1)).1 = 225000 := by
  refine ⟨_, rfl, by decide, ?_⟩
  have hincl : (calculateTrainerIncentivesForMonth c2cS.members 7 0 none).1 = 225000 := by
    simp [calculateTrainerIncentivesForMonth, c2cS, c2cMem, calculateMemberSalesContribution]
    norm_num [calculateIncentive, calculateMasterTrainerBonus, pct17]
  have hexcl : (calculateTrainerIncentivesForMonth c2cS.members 7 0 (some 1)).1 = 0 := by
    simp [calculateTrainerIncentivesForMonth, c2cS, c2cMem, calculateMemberSalesContribution]
    norm_num [calculateIncentive, calculateMasterTrainerBonus, pct17]
  rw [hincl, hexcl]
  norm_num

/-- Member of the claim C2 witness: 10 sessions at 100,000, month 0, nothing
completed. -/
def c2wMem : MemberR :=
  { id := 1, trainerId := 7, memberName := "박회원", phone := "01033334444",
    sessions := 10, unitPrice := 100000, channel := "일반", createdMonth := 0 }

/-- State of the claim C2 witness. -/
def c2wS : MState := ⟨[c2wMem], [], 2⟩

/-- Closed instance of claim C2's theorem: the witness member refunded in
month 1 (a later month, with a positive refund amount). -/
theorem c2_refund_deduction_witness :
    ∃ s', refundMember c2wS 1 1 = (s', none) ∧
      ∀ x' ∈ s'.members, x'.id = 1 →
        x'.refundStatus = some "refunded"
        ∧ x'.sessions = (completedCount c2wS.schedules 1 : Int)
        ∧ x'.originalSessions = some c2wMem.sessions
        ∧ x'.refundOrigMonth = some c2wMem.createdMonth
        ∧ x'.refundAppliedMonth = some 1
        ∧ (¬ c2wMem.createdMonth = 1 →
            0 < c2wMem.sessions * c2wMem.unitPrice
                - (completedCount c2wS.schedules 1 : Int) * c2wMem.unitPrice →
            x'.refundAmount = some
              ((calculateTrainerIncentivesForMonth c2wS.members c2wMem.trainerId c2wMem.createdMonth none).1
                - (calculateTrainerIncentivesForMonth c2wS.members c2wMem.trainerId c2wMem.createdMonth
                    (some 1)).1))
        ∧ (c2wMem.createdMonth = 1 → x'.refundAmount = some 0) :=
  c2_refund_deduction c2wS 1 1 c2wMem (by decide) (by decide)

/-- Member of the claim C8 state: 10 sessions, 2 completed, 1 future planned
booking. -/
def c8Mem : MemberR :=
  { id := 1, trainerId := 7, memberName := "정회원", phone := "01099990000",
    sessions := 10, unitPrice := 50000, channel := "일반", createdMonth := 0 }

/-- State of the claim C8 evaluation: two completed bookings in the past and
one planned booking (status `'수업 계획'`) in the future. -/
def c8S : MState :=
  ⟨[c8Mem], [⟨1, stDone, -3⟩, ⟨1, stDone, -2⟩, ⟨1, stPlanned, 5⟩], 2⟩

/-- Claim C8 evaluated at its failing input: transferring the entry creates
the receiving trainer's entry with `sessions = 10 - 2 = 8`, rewrites the
source to its completed count 2 and marks it `transferred` with
`original_sessions = 10` — but the source entry's future planned booking is
NOT deleted or cancelled: the delete statement filters on status `'계획'`
(bookings carry `'수업 계획'`) and on a column `date` that the `schedules`
table does not have, so it matches nothing. -/
theorem c8_transfer_keeps_planned_bookings :
    ∃ s', transferMember c8S 1 9 0 1 = (s', none)
      ∧ (∃ nm ∈ s'.members, nm.id = 2 ∧ nm.trainerId = 9 ∧ nm.sessions = 8
          ∧ nm.transferStatus = some "received" ∧ nm.transferredFrom = some 1)
      ∧ (∀ x ∈ s'.members, x.id = 1 →
          x.sessions = 2 ∧ x.transferStatus = some "transferred"
          ∧ x.originalSessions = some 10 ∧ x.transferredTo = some 9
          ∧ x.transferredSessions = some 8)
      ∧ (⟨1, stPlanned, 5⟩ : Sched) ∈ s'.schedules := by
  refine ⟨_, rfl, by decide, by decide, by decide⟩

/-- Claim C3 (amended): the worked examples of the tier tables, with the
incentive at 12,000,000 corrected to 2,040,000 — the source computes
`int(12_000_000 * 0.17)`, which is 2,040,000, not the 3,040,000 the spec
states; the other two examples hold as written. -/
theorem c3_tier_examples :
    calculateIncentive 12000000 = 2040000
      ∧ calculateIncentive 2000000 = 0
      ∧ calculateLessonFeeRate 8500000 = 33 := by
  norm_num [calculateIncentive, calculateLessonFeeRate, pct17]

/-- Claim C3 counterexample: the incentive for a monthly sales amount of
12,000,000 is not 3,040,000 (the 12M tier pays `int(sales * 0.17)` with no
fixed addition). -/
theorem c3_tier_counterexample : calculateIncentive 12000000 ≠ 3040000 := by
  norm_num [calculateIncentive, pct17]

/-- Claim C10: the day-off deduction is never negative; it is 0 for every day
count at most 1 (including negative counts) and `(days - 1) * 33000`
otherwise, and the update endpoint clamps non-numeric or negative submitted
counts to 0, so every stored day count is non-negative. -/
theorem c10_dayoff_nonneg :
    (∀ d : Int, 0 ≤ calculateDayoffDeduction d)
      ∧ (∀ d : Int, d ≤ 1 → calculateDayoffDeduction d = 0)
      ∧ (∀ d : Int, 1 < d → calculateDayoffDeduction d = (d - 1) * 33000)
      ∧ (∀ i : Option Int, 0 ≤ normalizeDayoffDays i) := by
  refine ⟨?_, ?_, ?_, ?_⟩
  · intro d
    unfold calculateDayoffDeduction
    split
    · exact le_refl 0
    · rename_i h
      have h1 : 1 < d := by omega
      nlinarith
  · intro d hd
    unfold calculateDayoffDeduction
    rw [if_pos hd]
  · intro d hd
    unfold calculateDayoffDeduction
    rw [if_neg (by omega)]
  · intro i
    cases i with
    | none => exact le_refl 0
    | some d =>
        unfold normalizeDayoffDays
        split
        · exact le_refl 0
        · rename_i h; omega

/-- Closed instance of claim C10 at concrete inputs: a negative count and a
non-numeric submission deduct nothing, and 5 days deduct 132,000. -/
theorem c10_dayoff_nonneg_witness :
    calculateDayoffDeduction (-2) = 0
      ∧ calculateDayoffDeduction 5 = (5 - 1) * 33000
      ∧ 0 ≤ normalizeDayoffDays none :=
  ⟨c10_dayoff_nonneg.2.1 (-2) (by decide),
   c10_dayoff_nonneg.2.2.1 5 (by decide),
   c10_dayoff_nonneg.2.2.2 none⟩

/-! OT (trial-session) assignment engine: assignment under a 7-day deadline,
one-time extension, expiry sweep, manual reclaim. -/

/-- The trial member type string (`'OT회원'`). -/
def otMemberType : String := "OT회원"

/-- Seven days, the assignment deadline window, in seconds. -/
def sevenDays : Int := 7 * 86400

/-- One row of the `ot_assignments` table. -/
structure OTAssignment where
  id : Nat
  memberId : Nat
  trainerId : Nat
  sessionNumber : Nat
  status : String
  assignedAt : Int
  deadline : Int
  extended : Bool
  returnedAt : Option Int := none
  deriving DecidableEq

/-- The columns of a `members` row that the OT engine reads and writes. -/
structure OTMember where
  id : Nat
  sessions : Nat
  memberType : String
  otRemaining : Nat
  otStatus : String
  deriving DecidableEq

/-- A `schedules` row as the OT expiry sweep reads it (member, trainer,
status). -/
structure OTSched where
  memberId : Nat
  trainerId : Nat
  status : String
  deriving DecidableEq

/-- One append-only `ot_assignment_history` record. -/
structure HistoryRec where
  memberId : Nat
  trainerId : Option Nat
  action : String
  deriving DecidableEq

/-- State of the OT engine: the relevant tables plus the store-generated key
for the next inserted assignment row. -/
structure OTState where
  members : List OTMember
  assignments : List OTAssignment
  schedules : List OTSched
  history : List HistoryRec
  nextAssignmentId : Nat
  deriving DecidableEq

/-- Completed-booking check of the expiry sweep: the source looks for any
`'수업 완료'` schedule of the assignment's member with the assignment's
trainer (not one referencing the assignment itself). -/
def hasCompletedFor (scheds : List OTSched) (memberId trainerId : Nat) : Bool :=
  scheds.any (fun c => decide (c.memberId = memberId ∧ c.trainerId = trainerId
    ∧ c.status = stDone))

/-- Body of the expiry-sweep loop for one expired assignment `a`: skip if the
member/trainer pair has a completed booking; otherwise return the assignment,
bump the member's `ot_remaining_sessions` by 1 and recompute the member
status.  The source re-reads the member row selecting only
`ot_remaining_sessions, ot_status` and then compares `new_remaining` against
`row.get('sessions', 1)`; the `sessions` key is absent from that row, so the
comparison is against the literal default 1 and always succeeds. -/
def expireStep (now : Int) (s : OTState) (a : OTAssignment) : OTState :=
  if hasCompletedFor s.schedules a.memberId a.trainerId then s
  else
    let assignments' := s.assignments.map (fun x =>
      if x.id = a.id then { x with status := "returned", returnedAt := some now } else x)
    match s.members.find? (fun m => decide (m.id = a.memberId)) with
    | none =>
        { s with assignments := assignments',
                 history := s.history ++ [⟨a.memberId, some a.trainerId, "returned"⟩] }
    | some mem =>
        let newRemaining := mem.otRemaining + 1
        let otherCount := (assignments'.filter (fun x =>
          decide (x.memberId = a.memberId ∧ x.status = "assigned"))).length
        let newStatus0 := if 0 < otherCount then "partial" else "unassigned"
        let newStatus := if 1 ≤ newRemaining then "unassigned" else newStatus0
        { s with
          assignments := assignments',
          members := s.members.map (fun m => if m.id = a.memberId then
            { m with otRemaining := newRemaining, otStatus := newStatus } else m),
          history := s.history ++ [⟨a.memberId, some a.trainerId, "returned"⟩] }

/-- Model of `check_and_return_expired_ot_members`: fetch every `assigned`
assignment whose deadline has passed, then process each with
`expireStep`. -/
def checkAndReturnExpiredOtMembers (s : OTState) (now : Int) : OTState :=
  (s.assignments.filter (fun a => decide (a.status = "assigned" ∧ a.deadline < now))).foldl
    (expireStep now) s

/-- Assignment rows of one ledger entry (member), in table order. -/
def assignmentsOf (s : OTState) (mid : Nat) : List OTAssignment :=
  s.assignments.filter (fun a => decide (a.memberId = mid))

/-- Identity-relevant projection of an assignment row: which member it belongs
to and its session number (the fields no lifecycle transition may change). -/
def pairOf (a : OTAssignment) : Nat × Nat := (a.memberId, a.sessionNumber)

/-- Typed errors of `assign_ot_member`. -/
inductive AssignErr where
  | notFound
  | notTrial
  | noRemaining
  deriving DecidableEq

/-- Model of `assign_ot_member`: requires a trial member with positive
`ot_remaining_sessions`, clamps the requested count to the remaining count,
inserts that many `assigned` rows numbered from the member's current
assignment-row count + 1 with `deadline = now + 7 days` and
`extended = false`, then updates the member's remaining count and status. -/
def assignOtMember (s : OTState) (memberId trainerId : Nat) (countReq : Int) (now : Int) :
    OTState × Option AssignErr :=
  match s.members.find? (fun m => decide (m.id = memberId)) with
  | none => (s, some .notFound)
  | some mem =>
      if ¬ mem.memberType = otMemberType then (s, some .notTrial)
      else
        let remaining : Int := (mem.otRemaining : Int)
        if remaining ≤ 0 then (s, some .noRemaining)
        else
          let k : Int := if remaining < countReq then remaining else countReq
          let current := (assignmentsOf s memberId).length
          let newRows := (List.range k.toNat).map (fun i =>
            ({ id := s.nextAssignmentId + i, memberId := memberId,
               trainerId := trainerId, sessionNumber := current + i + 1,
               status := "assigned", assignedAt := now,
               deadline := now + sevenDays, extended := false } : OTAssignment))
          let newRemaining := remaining - k
          let newStatus := if newRemaining = 0 then "assigned" else "partial"
          ({ s with
             assignments := s.assignments ++ newRows,
             members := s.members.map (fun m => if m.id = memberId then
               { m with otRemaining := newRemaining.toNat, otStatus := newStatus } else m),
             nextAssignmentId := s.nextAssignmentId + k.toNat }, none)

/-- Typed errors of `reclaim_ot_member`. -/
inductive ReclaimErr where
  | notFound
  | invalidState
  deriving DecidableEq

/-- Model of `reclaim_ot_member`: returns every currently `assigned`
assignment of the member, restores `ot_remaining_sessions = sessions` and
sets the member status to `unassigned`. -/
def reclaimOtMember (s : OTState) (memberId : Nat) (now : Int) :
    OTState × Option ReclaimErr :=
  match s.members.find? (fun m => decide (m.id = memberId)) with
  | none => (s, some .notFound)
  | some mem =>
      if ¬ (mem.otStatus = "assigned" ∨ mem.otStatus = "partial")
      then (s, some .invalidState)
      else
        ({ s with
           assignments := s.assignments.map (fun x =>
             if x.memberId = memberId ∧ x.status = "assigned"
             then { x with status := "returned", returnedAt := some now } else x),
           members := s.members.map (fun m => if m.id = memberId then
             { m with otStatus := "unassigned", otRemaining := mem.sessions } else m),
           history := s.history ++ [⟨memberId, none, "returned"⟩] }, none)

/-- Typed errors of `extend_ot_assignment`. -/
inductive ExtendErr where
  | notFound
  | alreadyExtended
  | invalidState
  deriving DecidableEq

/-- Model of `extend_ot_assignment`: one-time 7-day deadline extension,
allowed only while the assignment is `assigned`; the `extended` flag is
checked before the status. -/
def extendOtAssignment (s : OTState) (assignmentId : Nat) : OTState × Option ExtendErr :=
  match s.assignments.find? (fun a => decide (a.id = assignmentId)) with
  | none => (s, some .notFound)
  | some a =>
      if a.extended then (s, some .alreadyExtended)
      else if ¬ a.status = "assigned" then (s, some .invalidState)
      else
        ({ s with
           assignments := s.assignments.map (fun x => if x.id = assignmentId
             then { x with deadline := a.deadline + sevenDays, extended := true } else x),
           history := s.history ++ [⟨a.memberId, some a.trainerId, "extended"⟩] }, none)

/-! Expiry sweep: concrete evaluation (claim C5). -/

/-- Trial member of the claim C5 evaluation: 3 sessions, none left to assign,
currently `partial`. -/
def c5M : OTMember := ⟨1, 3, otMemberType, 0, "partial"⟩

/-- Expired assignment of the claim C5 evaluation (deadline 10 < now 50). -/
def c5A1 : OTAssignment := ⟨10, 1, 7, 1, "assigned", 0, 10, false, none⟩

/-- Still-active assignment of the claim C5 evaluation (deadline 100 > now
50). -/
def c5A2 : OTAssignment := ⟨11, 1, 8, 2, "assigned", 0, 100, false, none⟩

/-- Initial state of the claim C5 evaluation. -/
def c5S0 : OTState := ⟨[c5M], [c5A1, c5A2], [], [], 12⟩

/-- State after one expiry sweep at time 50. -/
def c5S1 : OTState := checkAndReturnExpiredOtMembers c5S0 50

/-- Claim C5 evaluated at its failing input: the sweep returns the expired
assignment exactly once, increments `ot_remaining_sessions` by exactly 1, and
a second sweep changes nothing — but the member status is set to
`'unassigned'` even though the second assignment is still `'assigned'` (the
claim and spec say `'partial'`): the source compares `new_remaining` against
`row.get('sessions', 1)` on a row selected without the `sessions` column, so
the always-true comparison `new_remaining >= 1` forces `'unassigned'`. -/
theorem c5_expiry_sweep_always_unassigned :
    c5S1.assignments
        = [{ c5A1 with status := "returned", returnedAt := some 50 }, c5A2]
      ∧ c5S1.members = [{ c5M with otRemaining := 1, otStatus := "unassigned" }]
      ∧ checkAndReturnExpiredOtMembers c5S1 50 = c5S1
      ∧ (∃ x ∈ c5S1.assignments, x.memberId = 1 ∧ x.status = "assigned") := by
  decide

/-! Session-number bookkeeping (claim C6). -/

theorem foldl_preserving {γ δ : Type} (P : OTState → δ) (f : OTState → γ → OTState)
    (h : ∀ s a, P (f s a) = P s) :
    ∀ (l : List γ) (s : OTState), P (l.foldl f s) = P s := by
  intro l
  induction l with
  | nil => intro s; rfl
  | cons a t ih => intro s; rw [List.foldl_cons, ih, h]

theorem map_pairOf_update (l : List OTAssignment) (aid : Nat) (now : Int) :
    (l.map (fun x => if x.id = aid
        then { x with status := "returned", returnedAt := some now } else x)).map pairOf
      = l.map pairOf := by
  rw [List.map_map]
  apply List.map_congr_left
  intro x _
  by_cases h : x.id = aid <;> simp [pairOf, h]

theorem expireStep_pairs (now : Int) (s : OTState) (a : OTAssignment) :
    ((expireStep now s a).assignments).map pairOf = s.assignments.map pairOf := by
  unfold expireStep
  by_cases hc : hasCompletedFor s.schedules a.memberId a.trainerId
  · rw [if_pos hc]
  · rw [if_neg hc]
    cases hf : s.members.find? (fun m => decide (m.id = a.memberId)) with
    | none => simp only [hf]; exact map_pairOf_update _ _ _
    | some mem => simp only [hf]; exact map_pairOf_update _ _ _

theorem sweep_pairs (s : OTState) (now : Int) :
    ((checkAndReturnExpiredOtMembers s now).assignments).map pairOf
      = s.assignments.map pairOf :=
  foldl_preserving (fun st => st.assignments.map pairOf) (expireStep now)
    (fun s' a => expireStep_pairs now s' a) _ s

theorem reclaim_pairs (s : OTState) (mid : Nat) (now : Int) :
    (((reclaimOtMember s mid now).1).assignments).map pairOf = s.assignments.map pairOf := by
  cases hf : s.members.find? (fun m => decide (m.id = mid)) with
  | none => simp only [reclaimOtMember, hf]
  | some mem =>
      simp only [reclaimOtMember, hf]
      by_cases hst : ¬ (mem.otStatus = "assigned" ∨ mem.otStatus = "partial")
      · rw [if_pos hst]
      · rw [if_neg hst]
        simp only
        rw [List.map_map]
        apply List.map_congr_left
        intro x _
        by_cases h : x.memberId = mid ∧ x.status = "assigned" <;> simp [pairOf, h]

theorem map_sessionNumber_filter_eq (l l' : List OTAssignment) (mid : Nat)
    (h : l.map pairOf = l'.map pairOf) :
    (l.filter (fun a => decide (a.memberId = mid))).map (fun a => a.sessionNumber)
      = (l'.filter (fun a => decide (a.memberId = mid))).map (fun a => a.sessionNumber) := by
  have key : ∀ (m : List OTAssignment),
      (m.filter (fun a => decide (a.memberId = mid))).map (fun a => a.sessionNumber)
        = ((m.map pairOf).filter (fun p => decide (p.1 = mid))).map (fun p => p.2) := by
    intro m
    induction m with
    | nil => rfl
    | cons x t ih =>
        by_cases hx : x.memberId = mid
        · simp [List.filter_cons, pairOf, hx, ih]
        · simp [List.filter_cons, pairOf, hx, ih]
  rw [key, key, h]

/-- Claim C6: for a trial entry with remaining sessions, `assign` creates
`min(count, remaining)` new assignment rows numbered contiguously from the
entry's current assignment-row count + 1, each `assigned` with
`deadline = now + 7 days` and `extended = false`; hence if the entry's
session numbers were exactly `1..n` they become exactly `1..n+k` — and both
the expiry sweep and manual reclaim leave every entry's session-number
sequence unchanged (rows are never deleted, so reclaimed numbers are not
reused). -/
theorem c6_assignment_numbering :
    (∀ (s : OTState) (mid tid : Nat) (c now : Int) (mem : OTMember),
      s.members.find? (fun m => decide (m.id = mid)) = some mem →
      mem.memberType = otMemberType →
      0 < (mem.otRemaining : Int) →
      1 ≤ c →
      ∃ s', assignOtMember s mid tid c now = (s', none)
        ∧ s'.assignments = s.assignments
            ++ (List.range (min c (mem.otRemaining : Int)).toNat).map (fun i =>
              ({ id := s.nextAssignmentId + i, memberId := mid, trainerId := tid,
                 sessionNumber := (assignmentsOf s mid).length + i + 1,
                 status := "assigned", assignedAt := now,
                 deadline := now + sevenDays, extended := false } : OTAssignment))
        ∧ ((assignmentsOf s mid).map (fun a => a.sessionNumber)
              = (List.range (assignmentsOf s mid).length).map (· + 1) →
            (assignmentsOf s' mid).map (fun a => a.sessionNumber)
              = (List.range ((assignmentsOf s mid).length
                  + (min c (mem.otRemaining : Int)).toNat)).map (· + 1)))
    ∧ (∀ (s : OTState) (now : Int) (mid : Nat),
        (assignmentsOf (checkAndReturnExpiredOtMembers s now) mid).map
            (fun a => a.sessionNumber)
          = (assignmentsOf s mid).map (fun a => a.sessionNumber))
    ∧ (∀ (s : OTState) (mid : Nat) (now : Int) (mid' : Nat),
        (assignmentsOf ((reclaimOtMember s mid now).1) mid').map (fun a => a.sessionNumber)
          = (assignmentsOf s mid').map (fun a => a.sessionNumber)) := by
  refine ⟨?_, ?_, ?_⟩
  · intro s mid tid c now mem hfind htype hrem hc
    have hr0 : ¬ ((mem.otRemaining : Int) ≤ 0) := by omega
    simp only [assignOtMember, hfind, if_neg (not_not_intro htype), if_neg hr0]
    have hk : (if (mem.otRemaining : Int) < c then (mem.otRemaining : Int) else c)
        = min c (mem.otRemaining : Int) := by omega
    rw [hk]
    refine ⟨_, rfl, rfl, ?_⟩
    intro hnum
    have happ : (assignmentsOf
        ({ s with
           assignments := s.assignments
             ++ (List.range (min c (mem.otRemaining : Int)).toNat).map (fun i =>
               ({ id := s.nextAssignmentId + i, memberId := mid, trainerId := tid,
                  sessionNumber := (assignmentsOf s mid).length + i + 1,
                  status := "assigned", assignedAt := now,
                  deadline := now + sevenDays, extended := false } : OTAssignment)),
           members := s.members.map (fun m => if m.id = mid then
             { m with
               otRemaining := ((mem.otRemaining : Int) - min c (mem.otRemaining : Int)).toNat,
               otStatus := if (mem.otRemaining : Int) - min c (mem.otRemaining : Int) = 0
                 then "assigned" else "partial" } else m),
           nextAssignmentId :=
             s.nextAssignmentId + (min c (mem.otRemaining : Int)).toNat } : OTState) mid)
        = assignmentsOf s mid
          ++ (List.range (min c (mem.otRemaining : Int)).toNat).map (fun i =>
            ({ id := s.nextAssignmentId + i, memberId := mid, trainerId := tid,
               sessionNumber := (assignmentsOf s mid).length + i + 1,
               status := "assigned", assignedAt := now,
               deadline := now + sevenDays, extended := false } : OTAssignment)) := by
      unfold assignmentsOf
      rw [List.filter_append]
      congr 1
      apply List.filter_eq_self.mpr
      intro x hx
      rcases List.mem_map.mp hx with ⟨i, _, rfl⟩
      simp
    rw [happ, List.map_append, hnum, List.range_add, List.map_append, List.map_map,
      List.map_map]
    congr 1
  · intro s now mid
    unfold assignmentsOf
    exact map_sessionNumber_filter_eq _ _ mid (sweep_pairs s now)
  · intro s mid now mid'
    unfold assignmentsOf
    exact map_sessionNumber_filter_eq _ _ mid' (reclaim_pairs s mid now)

/-- Trial member of the claim C6 witness: 3 sessions, all unassigned. -/
def c6wM : OTMember := ⟨1, 3, otMemberType, 3, "unassigned"⟩

/-- State of the claim C6 witness: no assignment rows yet. -/
def c6wS : OTState := ⟨[c6wM], [], [], [], 1⟩

/-- Closed instance of claim C6's theorem: assigning 2 of the 3 remaining
sessions creates rows numbered from 1. -/
theorem c6_assignment_numbering_witness :
    ∃ s', assignOtMember c6wS 1 7 2 0 = (s', none)
      ∧ s'.assignments = c6wS.assignments
          ++ (List.range (min 2 ((c6wM.otRemaining : Int))).toNat).map (fun i =>
            ({ id := c6wS.nextAssignmentId + i, memberId := 1, trainerId := 7,
               sessionNumber := (assignmentsOf c6wS 1).length + i + 1,
               status := "assigned", assignedAt := 0,
               deadline := 0 + sevenDays, extended := false } : OTAssignment))
      ∧ ((assignmentsOf c6wS 1).map (fun a => a.sessionNumber)
            = (List.range (assignmentsOf c6wS 1).length).map (· + 1) →
          (assignmentsOf s' 1).map (fun a => a.sessionNumber)
            = (List.range ((assignmentsOf c6wS 1).length
                + (min 2 ((c6wM.otRemaining : Int))).toNat)).map (· + 1)) :=
  c6_assignment_numbering.1 c6wS 1 7 2 0 c6wM (by decide) (by decide)
    (by decide) (by decide)

/-- Claim C9: `extend` succeeds only when the assignment is found with
`extended = false` and status `'assigned'`, in which case it adds exactly 7
days to the current deadline and sets `extended := true`, leaving every other
assignment and all other tables unchanged; it fails with `AlreadyExtended`
when `extended` is already true (checked first) and with `InvalidState` when
the status is not `'assigned'`, leaving the state unchanged in both failure
cases. -/
theorem c9_extend_once (s : OTState) (aid : Nat) (a : OTAssignment)
    (hfind : s.assignments.find? (fun x => decide (x.id = aid)) = some a) :
    (a.extended = true → extendOtAssignment s aid = (s, some ExtendErr.alreadyExtended))
    ∧ (a.extended = false → ¬ a.status = "assigned" →
        extendOtAssignment s aid = (s, some ExtendErr.invalidState))
    ∧ (a.extended = false → a.status = "assigned" →
        ∃ s', extendOtAssignment s aid = (s', none)
          ∧ (∀ x ∈ s'.assignments, x.id = aid →
              x.deadline = a.deadline + sevenDays ∧ x.extended = true)
          ∧ (∀ x ∈ s.assignments, ¬ x.id = aid → x ∈ s'.assignments)
          ∧ s'.members = s.members ∧ s'.schedules = s.schedules) := by
  refine ⟨?_, ?_, ?_⟩
  · intro hx
    simp only [extendOtAssignment, hfind, hx, if_true]
  · intro hx hst
    simp only [extendOtAssignment, hfind]
    rw [if_neg (by simp [hx]), if_pos hst]
  · intro hx hst
    simp only [extendOtAssignment, hfind]
    rw [if_neg (by simp [hx]), if_neg (not_not_intro hst)]
    refine ⟨_, rfl, ?_, ?_, rfl, rfl⟩
    · intro x hmem hid
      simp only [List.mem_map] at hmem
      obtain ⟨y, hy, rfl⟩ := hmem
      have hyid : y.id = aid := by
        by_cases h : y.id = aid
        · exact h
        · rw [if_neg h] at hid; exact absurd hid h
      rw [if_pos hyid]
      exact ⟨rfl, rfl⟩
    · intro x hmem hnid
      exact List.mem_map.mpr ⟨x, hmem, if_neg hnid⟩

/-- Assignment of the claim C9 witness: `assigned`, never extended. -/
def c9A : OTAssignment := ⟨5, 1, 7, 1, "assigned", 0, 1000, false, none⟩

/-- State of the claim C9 witness. -/
def c9S : OTState := ⟨[], [c9A], [], [], 6⟩

/-- Closed instance of claim C9's success branch: extending the witness
assignment moves its deadline 7 days and sets the flag. -/
theorem c9_extend_once_witness :
    ∃ s', extendOtAssignment c9S 5 = (s', none)
      ∧ (∀ x ∈ s'.assignments, x.id = 5 →
          x.deadline = c9A.deadline + sevenDays ∧ x.extended = true)
      ∧ (∀ x ∈ c9S.assignments, ¬ x.id = 5 → x ∈ s'.assignments)
      ∧ s'.members = c9S.members ∧ s'.schedules = c9S.schedules :=
  (c9_extend_once c9S 5 c9A (by decide)).2.2 (by decide) (by decide)

end Erp
